import Mathlib

/-
Shallow embedding of src/retry.py (version 1.1.0): the `retry` decorator
class, its `__init__` validation, and the `sync_wrapper` / `async_wrapper`
retry loops (the two loops are textually identical up to `await` and the
choice of sleep primitive, so a single loop embeds both).

Durations (`delay`, `max_delay`, `jitter`, computed waits) are modelled as
rationals. The wrapped operation is modelled as a function from the
invocation index (0-based) to its outcome; the stream of `uniform(-jitter,
jitter)` draws is modelled as a function from the attempt counter value at
the time of the draw. The host sleep is modelled as recording the duration
passed to it in a trace.
-/

namespace Retry

/-- The Python exception classes relevant to the retry module: the builtin
hierarchy members it manipulates (`BaseException`, `Exception`,
`ValueError`, `KeyError`, `TypeError`), `asyncio.CancelledError` (a direct
`BaseException` subclass since Python 3.8), and the module-defined
`MaxRetryExceededError` (an `Exception` subclass, src/retry.py line 20). -/
inductive ExcClass where
  | baseException
  | exception
  | valueError
  | keyError
  | typeError
  | cancelledError
  | maxRetryExceededError
deriving DecidableEq, Repr

/-- The method-resolution-order ancestor list of each class (the class
itself first), mirroring the Python class hierarchy. -/
def ancestors : ExcClass → List ExcClass
  | .baseException => [.baseException]
  | .exception => [.exception, .baseException]
  | .valueError => [.valueError, .exception, .baseException]
  | .keyError => [.keyError, .exception, .baseException]
  | .typeError => [.typeError, .exception, .baseException]
  | .cancelledError => [.cancelledError, .baseException]
  | .maxRetryExceededError => [.maxRetryExceededError, .exception, .baseException]

/-- Python `issubclass(c, d)`. -/
def subclassOf (c d : ExcClass) : Bool := (ancestors c).contains d

/-- A Python exception instance: its class, its message, and its explicit
cause (the exception named by `raise ... from exc`, i.e. `__cause__`). -/
inductive PyExc where
  | mk (cls : ExcClass) (msg : String) (cause : Option PyExc)

def PyExc.cls : PyExc → ExcClass
  | .mk c _ _ => c

def PyExc.msg : PyExc → String
  | .mk _ m _ => m

def PyExc.cause : PyExc → Option PyExc
  | .mk _ _ c => c

/-- An entry of the `exceptions` argument: either an exception class or a
class that does not derive from `BaseException` (e.g. `int`). -/
inductive ExcEntry where
  | excClass (c : ExcClass)
  | otherClass
deriving DecidableEq, Repr

/-- Whether the entry passes `issubclass(exc, BaseException)`. -/
def ExcEntry.isErrKind : ExcEntry → Bool
  | .excClass _ => true
  | .otherClass => false

def ExcEntry.toClass : ExcEntry → Option ExcClass
  | .excClass c => some c
  | .otherClass => none

/-- The shape in which the `exceptions` argument is supplied to
`retry.__init__`: a single class, a tuple of entries, a non-tuple iterable
(e.g. a list) of entries, or a value that is neither a class nor an
iterable. -/
inductive ExcSpec where
  | single (e : ExcEntry)
  | tuple (es : List ExcEntry)
  | list (es : List ExcEntry)
  | notIterable
deriving DecidableEq, Repr

/-- What `retry.__init__` stores in `self.exceptions` after validation:
the original container kind is preserved (a single class is wrapped into a
one-element tuple; an iterable such as a list is stored unconverted,
src/retry.py lines 106-124 and 148). -/
inductive StoredExc where
  | tuple (cs : List ExcClass)
  | list (cs : List ExcClass)
deriving DecidableEq, Repr

/-- A backoff callable: `arity` is the length of `getfullargspec(f).args`;
`fn` maps (base delay, attempt number) to a duration or raises. -/
structure BackoffFn where
  arity : Nat
  fn : ℚ → Nat → Except PyExc ℚ

/-- The keyword arguments of `retry.__init__` (src/retry.py lines 58-67).
Python defaults: `max_retries = -1`, `delay = 0.0`, `max_delay = None`,
`jitter = 0.0`, `exceptions = Exception`, `backoff = None`. -/
structure RetryArgs where
  max_retries : Int
  delay : ℚ
  max_delay : Option ℚ
  jitter : ℚ
  exceptions : ExcSpec
  backoff : Option BackoffFn

/-- The validated, immutable state stored on the `retry` instance
(src/retry.py lines 144-149). -/
structure RetryPolicy where
  max_retries : Int
  delay : ℚ
  max_delay : Option ℚ
  jitter : ℚ
  exceptions : StoredExc
  backoff : BackoffFn

/-- The lambda substituted when `backoff is None` (src/retry.py line 142):
returns the delay unchanged; `getfullargspec` reports two parameters. -/
def defaultBackoff : BackoffFn := ⟨2, fun d _ => Except.ok d⟩

/-- Validation of the `exceptions` argument (src/retry.py lines 106-124).
A single class is checked against `BaseException` and wrapped in a tuple;
an iterable has every entry checked but is stored as supplied; anything
else is a `TypeError`. -/
def validateExceptions : ExcSpec → Except PyExc StoredExc
  | .single (.excClass c) => Except.ok (.tuple [c])
  | .single .otherClass =>
      Except.error (PyExc.mk .typeError
        "Type of exceptions must be a subclass of BaseException." none)
  | .tuple es =>
      if es.all ExcEntry.isErrKind then
        Except.ok (.tuple (es.filterMap ExcEntry.toClass))
      else
        Except.error (PyExc.mk .typeError
          "Exceptions must all be subclasses of BaseException." none)
  | .list es =>
      if es.all ExcEntry.isErrKind then
        Except.ok (.list (es.filterMap ExcEntry.toClass))
      else
        Except.error (PyExc.mk .typeError
          "Exceptions must all be subclasses of BaseException." none)
  | .notIterable =>
      Except.error (PyExc.mk .typeError
        "Exceptions must be a class or an iterable of classes derived from BaseException." none)

/-- `retry.__init__` (src/retry.py lines 58-149): value validation in
source order (`max_retries` nonzero, `delay` and `jitter` non-negative,
then the `exceptions` argument, then the `backoff` arity); the isinstance
type checks on `max_retries`, `delay` and `jitter` are enforced by the
Lean types. On success the policy fields are stored. -/
def retryInit (a : RetryArgs) : Except PyExc RetryPolicy :=
  if a.max_retries = 0 then
    Except.error (PyExc.mk .valueError
      "Value of max_retries must be a non-zero integer." none)
  else if a.delay < 0 then
    Except.error (PyExc.mk .valueError
      "Value of delay must be a non-negative integer." none)
  else if a.jitter < 0 then
    Except.error (PyExc.mk .valueError
      "Value of jitter must be a non-negative integer." none)
  else
    match validateExceptions a.exceptions with
    | Except.error e => Except.error e
    | Except.ok stored =>
      match a.backoff with
      | some b =>
          if b.arity ≠ 2 then
            Except.error (PyExc.mk .valueError
              "The backoff function must accept exactly 2 arguments." none)
          else
            Except.ok ⟨a.max_retries, a.delay, a.max_delay, a.jitter, stored, b⟩
      | none =>
          Except.ok ⟨a.max_retries, a.delay, a.max_delay, a.jitter, stored, defaultBackoff⟩

/-- Evaluation of the clause `except self.exceptions as exc` against the
class of a raised exception. A stored tuple matches when the raised class
is a subclass of some member; a stored list makes the interpreter itself
raise a `TypeError` while matching (CPython: catching classes in a
non-tuple container is not allowed). -/
def excMatch : StoredExc → ExcClass → Except PyExc Bool
  | .tuple cs, c => Except.ok (cs.any (fun d => subclassOf c d))
  | .list _, _ =>
      Except.error (PyExc.mk .typeError
        "catching classes that do not inherit from BaseException is not allowed" none)

/-- The message of the exhaustion error
(`"Maximum number of retries ({}) exceeded.".format(self.max_retries)`,
src/retry.py lines 174-177). -/
def maxRetryMsg (mr : Int) : String :=
  "Maximum number of retries (" ++ toString mr ++ ") exceeded."

/-- The effective bound: `self.max_retries if self.max_retries > 0 else
float("inf")` (src/retry.py lines 162-163); `none` models infinity. -/
def maxRBound (mr : Int) : Option Nat :=
  if 0 < mr then some mr.toNat else none

/-- The loop guard `attempts <= max_retries`; against infinity it is
always true. -/
def loopCond : Option Nat → Nat → Bool
  | some n, a => a ≤ n
  | none, _ => true

/-- The exhaustion test `attempts == max_retries`; against infinity it is
always false. -/
def atMax : Option Nat → Nat → Bool
  | some n, a => a == n
  | none, _ => false

/-- The delay computation of one handled failure (src/retry.py lines
179-186): `delay = self.backoff(self.delay, attempts)` (the stored backoff
is always a callable, hence always used), plus the jitter draw, then
clamped to `max_delay` when that is set. An error raised by the backoff
callable propagates. There is no floor at zero. -/
def computeDelay (p : RetryPolicy) (attempts : Nat) (draw : ℚ) : Except PyExc ℚ :=
  match p.backoff.fn p.delay attempts with
  | Except.error e => Except.error e
  | Except.ok d0 =>
      let d1 := d0 + draw
      Except.ok
        (match p.max_delay with
         | some m => min d1 m
         | none => d1)

/-- Outcome of running the wrapper: a returned value, a raised exception,
the implicit `None` returned if the `while` guard ever fails (unreachable
in practice), or fuel exhaustion of the model (the Python loop would still
be running). -/
inductive RunOutcome (α : Type) where
  | ok (v : α)
  | raise (e : PyExc)
  | pyNone
  | diverge

/-- The retry loop shared verbatim by `sync_wrapper` (src/retry.py lines
157-189) and `async_wrapper` (lines 192-224): while `attempts <=
max_retries`, invoke the operation; on success return its value; on a
raised exception, if the stored `exceptions` matches it, increment
`attempts`, raise `MaxRetryExceededError from exc` when `attempts ==
max_retries`, otherwise compute the delay and sleep; a non-matching
exception (or one raised by the matching step or the backoff itself)
propagates. Returns (outcome, number of invocations of the operation,
durations passed to sleep in order). -/
def retryLoop (p : RetryPolicy) (op : Nat → Except PyExc α) (draws : Nat → ℚ)
    (maxR : Option Nat) :
    Nat → Nat → Nat → List ℚ → RunOutcome α × Nat × List ℚ
  | 0, _, calls, waits => (RunOutcome.diverge, calls, waits)
  | fuel + 1, attempts, calls, waits =>
    if loopCond maxR attempts then
      match op calls with
      | Except.ok v => (RunOutcome.ok v, calls + 1, waits)
      | Except.error exc =>
        match excMatch p.exceptions (PyExc.cls exc) with
        | Except.error te => (RunOutcome.raise te, calls + 1, waits)
        | Except.ok false => (RunOutcome.raise exc, calls + 1, waits)
        | Except.ok true =>
          if atMax maxR (attempts + 1) then
            (RunOutcome.raise
              (PyExc.mk .maxRetryExceededError (maxRetryMsg p.max_retries) (some exc)),
             calls + 1, waits)
          else
            match computeDelay p (attempts + 1) (draws (attempts + 1)) with
            | Except.error be => (RunOutcome.raise be, calls + 1, waits)
            | Except.ok d =>
                retryLoop p op draws maxR fuel (attempts + 1) (calls + 1) (waits ++ [d])
    else (RunOutcome.pyNone, calls, waits)

/-- One call of the wrapped operation: `attempts = 0`, empty trace, the
bound derived from `self.max_retries`. -/
def syncWrapper (p : RetryPolicy) (op : Nat → Except PyExc α) (draws : Nat → ℚ)
    (fuel : Nat) : RunOutcome α × Nat × List ℚ :=
  retryLoop p op draws (maxRBound p.max_retries) fuel 0 0 []

/-- The retry loop with host cancellation of the wait modelled: `cancels a`
tells whether the host delivers a cancellation signal during the sleep
performed at attempts value `a`. The sleep call (src/retry.py lines 189
and 224) sits inside the `except` handler, outside the `try` block, so an
exception it raises cannot reach the `except self.exceptions` clause: the
loop ends and the exception propagates, for every policy. A cancellation
delivered during the operation call itself needs no extra machinery: it
surfaces as the operation raising an exception whose class is the
cancellation class, inside the `try`, and goes through the ordinary
classification. With no cancellation scheduled this loop coincides with
`retryLoop` (`retryLoopC_no_cancel`). The trace records completed waits. -/
def retryLoopC (p : RetryPolicy) (op : Nat → Except PyExc α) (draws : Nat → ℚ)
    (cancels : Nat → Option PyExc) (maxR : Option Nat) :
    Nat → Nat → Nat → List ℚ → RunOutcome α × Nat × List ℚ
  | 0, _, calls, waits => (RunOutcome.diverge, calls, waits)
  | fuel + 1, attempts, calls, waits =>
    if loopCond maxR attempts then
      match op calls with
      | Except.ok v => (RunOutcome.ok v, calls + 1, waits)
      | Except.error exc =>
        match excMatch p.exceptions (PyExc.cls exc) with
        | Except.error te => (RunOutcome.raise te, calls + 1, waits)
        | Except.ok false => (RunOutcome.raise exc, calls + 1, waits)
        | Except.ok true =>
          if atMax maxR (attempts + 1) then
            (RunOutcome.raise
              (PyExc.mk .maxRetryExceededError (maxRetryMsg p.max_retries) (some exc)),
             calls + 1, waits)
          else
            match computeDelay p (attempts + 1) (draws (attempts + 1)) with
            | Except.error be => (RunOutcome.raise be, calls + 1, waits)
            | Except.ok d =>
              match cancels (attempts + 1) with
              | some ce => (RunOutcome.raise ce, calls + 1, waits)
              | none =>
                  retryLoopC p op draws cancels maxR fuel (attempts + 1) (calls + 1)
                    (waits ++ [d])
    else (RunOutcome.pyNone, calls, waits)

/-- One call of the wrapped operation under a host cancellation
schedule. -/
def syncWrapperC (p : RetryPolicy) (op : Nat → Except PyExc α) (draws : Nat → ℚ)
    (cancels : Nat → Option PyExc) (fuel : Nat) : RunOutcome α × Nat × List ℚ :=
  retryLoopC p op draws cancels (maxRBound p.max_retries) fuel 0 0 []

/-- `min d m` for a set `max_delay`, `d` unchanged otherwise: the clamp of
src/retry.py lines 184-186, as a standalone function for stating the
deterministic-wait property. -/
def clampDelay : Option ℚ → ℚ → ℚ
  | some m, d => min d m
  | none, d => d

/-- Whether the `exceptions` argument contains an entry that is not an
error kind (a class not deriving `BaseException`). -/
def hasBadEntry : ExcSpec → Bool
  | .single e => !e.isErrKind
  | .tuple es => !es.all ExcEntry.isErrKind
  | .list es => !es.all ExcEntry.isErrKind
  | .notIterable => false

theorem subclassOf_self (c : ExcClass) : subclassOf c c = true := by
  cases c <;> rfl

theorem loopCond_zero (m : Option Nat) : loopCond m 0 = true := by
  cases m <;> simp [loopCond]

/-- A bounded effective retry limit is at least one. -/
theorem maxRBound_pos (mr : Int) (n : Nat) (h : maxRBound mr = some n) : 1 ≤ n := by
  unfold maxRBound at h
  by_cases hpos : 0 < mr
  · rw [if_pos hpos] at h
    injection h with h2
    omega
  · rw [if_neg hpos] at h
    cases h

/-- With no cancellation scheduled, the cancellation-aware loop coincides
with the plain loop. -/
theorem retryLoopC_no_cancel (p : RetryPolicy) (op : Nat → Except PyExc α)
    (draws : Nat → ℚ) (maxR : Option Nat) :
    ∀ fuel a c ws, retryLoopC p op draws (fun _ => none) maxR fuel a c ws =
      retryLoop p op draws maxR fuel a c ws := by
  intro fuel
  induction fuel with
  | zero => intro a c ws; rfl
  | succ f ih =>
      intro a c ws
      simp only [retryLoopC, retryLoop]
      by_cases hcond : loopCond maxR a = true
      · rw [if_pos hcond, if_pos hcond]
        cases hop : op c with
        | ok v => rfl
        | error exc =>
            cases hm : excMatch p.exceptions (PyExc.cls exc) with
            | error te => simp [hm]
            | ok b =>
                cases b with
                | false => simp [hm]
                | true =>
                    simp only [hm]
                    by_cases hat : atMax maxR (a + 1) = true
                    · rw [if_pos hat, if_pos hat]
                    · rw [if_neg hat, if_neg hat]
                      cases hcd : computeDelay p (a + 1) (draws (a + 1)) with
                      | error be => rfl
                      | ok d =>
                          simp only [hcd]
                          exact ih (a + 1) (c + 1) (ws ++ [d])
      · rw [if_neg hcond, if_neg hcond]

/-- After a prefix of `m` matched failures with completed sleeps and a
live attempt budget, a cancellation ends the run with `m + 1` total
invocations: either the operation raises it at invocation `m` and no
stored class matches it, or it is delivered during the sleep that follows
a matched failure at invocation `m` (where nothing can catch it). -/
theorem retryLoopC_cancel (p : RetryPolicy) (op : Nat → Except PyExc α)
    (draws : Nat → ℚ) (cancels : Nat → Option PyExc) (maxR : Option Nat)
    (m : Nat) (ce : PyExc)
    (hcond : ∀ a, a ≤ m → loopCond maxR a = true)
    (hpre : ∀ i, i < m → ∃ e, op i = Except.error e ∧
      excMatch p.exceptions (PyExc.cls e) = Except.ok true)
    (hlive : ∀ i, i < m → atMax maxR (i + 1) = false)
    (hbo : ∀ a, ∃ q, computeDelay p a (draws a) = Except.ok q)
    (hslp : ∀ a, a ≤ m → cancels a = none)
    (hcase :
      (op m = Except.error ce ∧
        excMatch p.exceptions (PyExc.cls ce) = Except.ok false) ∨
      ((∃ e, op m = Except.error e ∧
          excMatch p.exceptions (PyExc.cls e) = Except.ok true) ∧
        atMax maxR (m + 1) = false ∧ cancels (m + 1) = some ce)) :
    ∀ fuel c ws, c ≤ m → m - c < fuel →
      ∃ tail, retryLoopC p op draws cancels maxR fuel c c ws =
        (RunOutcome.raise ce, m + 1, ws ++ tail) ∧ tail.length = m - c := by
  intro fuel
  induction fuel with
  | zero => intro c ws hc hf; omega
  | succ f ih =>
      intro c ws hc hf
      have hcnd : loopCond maxR c = true := hcond c hc
      by_cases hcm : c = m
      · subst hcm
        rcases hcase with ⟨hop, hm⟩ | ⟨⟨e, hoe, hme⟩, hat, hcc⟩
        · refine ⟨[], ?_, by simp only [List.length_nil]; omega⟩
          simp only [retryLoopC, hcnd, if_true, hop, hm, List.append_nil]
        · refine ⟨[], ?_, by simp only [List.length_nil]; omega⟩
          obtain ⟨q, hq⟩ := hbo (c + 1)
          simp only [retryLoopC, hcnd, if_true, hoe, hme, hat, hq, hcc,
            Bool.false_eq_true, if_false, List.append_nil]
      · obtain ⟨e, hoe, hme⟩ := hpre c (by omega)
        have hat := hlive c (by omega)
        obtain ⟨q, hq⟩ := hbo (c + 1)
        have hcc : cancels (c + 1) = none := hslp (c + 1) (by omega)
        obtain ⟨tail2, hrec, hlen⟩ := ih (c + 1) (ws ++ [q]) (by omega) (by omega)
        refine ⟨q :: tail2, ?_, by simp only [List.length_cons, hlen]; omega⟩
        rw [List.append_assoc, List.singleton_append] at hrec
        simp only [retryLoopC, hcnd, if_true, hoe, hme, hat, hq, hcc]
        exact hrec

/-- Every validation error of the `exceptions` argument is a `TypeError`. -/
theorem validateExceptions_error_cls (s : ExcSpec) (e : PyExc)
    (h : validateExceptions s = Except.error e) : PyExc.cls e = ExcClass.typeError := by
  cases s with
  | single en =>
      cases en with
      | excClass c => simp [validateExceptions] at h
      | otherClass =>
          simp only [validateExceptions, Except.error.injEq] at h
          rw [← h]
          rfl
  | tuple es =>
      by_cases hall : es.all ExcEntry.isErrKind
      · simp [validateExceptions, hall] at h
      · simp only [validateExceptions, if_neg hall, Except.error.injEq] at h
        rw [← h]
        rfl
  | list es =>
      by_cases hall : es.all ExcEntry.isErrKind
      · simp [validateExceptions, hall] at h
      · simp only [validateExceptions, if_neg hall, Except.error.injEq] at h
        rw [← h]
        rfl
  | notIterable =>
      simp only [validateExceptions, Except.error.injEq] at h
      rw [← h]
      rfl

/-- Validation succeeds only when every entry is an error kind. -/
theorem validateExceptions_ok_good (s : ExcSpec) (st : StoredExc)
    (h : validateExceptions s = Except.ok st) : hasBadEntry s = false := by
  cases s with
  | single en =>
      cases en with
      | excClass c => simp [hasBadEntry, ExcEntry.isErrKind]
      | otherClass => simp [validateExceptions] at h
  | tuple es =>
      by_cases hall : es.all ExcEntry.isErrKind
      · simp [hasBadEntry, hall]
      · simp [validateExceptions, hall] at h
  | list es =>
      by_cases hall : es.all ExcEntry.isErrKind
      · simp [hasBadEntry, hall]
      · simp [validateExceptions, hall] at h
  | notIterable => simp [hasBadEntry]

/-- A successfully computed delay never exceeds a set `max_delay`. -/
theorem computeDelay_le (p : RetryPolicy) (D : ℚ) (hD : p.max_delay = some D)
    (i : Nat) (draw w : ℚ) (hw : computeDelay p i draw = Except.ok w) : w ≤ D := by
  unfold computeDelay at hw
  cases hb : p.backoff.fn p.delay i with
  | error e => rw [hb] at hw; cases hw
  | ok d0 =>
      rw [hb, hD] at hw
      simp only [Except.ok.injEq] at hw
      rw [← hw]
      exact min_le_right _ _

/-- All recorded sleep durations of a run with a set `max_delay = D` are
at most `D`, provided the durations already in the trace are. -/
theorem retryLoop_waits_le (p : RetryPolicy) (op : Nat → Except PyExc α)
    (draws : Nat → ℚ) (maxR : Option Nat) (D : ℚ) (hD : p.max_delay = some D) :
    ∀ fuel a c ws, (∀ w ∈ ws, w ≤ D) →
      ∀ w ∈ (retryLoop p op draws maxR fuel a c ws).2.2, w ≤ D := by
  intro fuel
  induction fuel with
  | zero => intro a c ws hws; simpa [retryLoop] using hws
  | succ f ih =>
      intro a c ws hws
      simp only [retryLoop]
      by_cases hcond : loopCond maxR a = true
      · rw [if_pos hcond]
        cases hop : op c with
        | ok v => simpa using hws
        | error exc =>
            cases hm : excMatch p.exceptions (PyExc.cls exc) with
            | error te => simpa [hm] using hws
            | ok b =>
                cases b with
                | false => simpa [hm] using hws
                | true =>
                    simp only [hm]
                    by_cases hat : atMax maxR (a + 1) = true
                    · rw [if_pos hat]; simpa using hws
                    · rw [if_neg hat]
                      cases hcd : computeDelay p (a + 1) (draws (a + 1)) with
                      | error be => simpa [hcd] using hws
                      | ok d =>
                          simp only [hcd]
                          apply ih
                          intro w hw
                          rcases List.mem_append.1 hw with h | h
                          · exact hws w h
                          · have hwd : w = d := by simpa using h
                            rw [hwd]
                            exact computeDelay_le p D hD (a + 1) (draws (a + 1)) d hcd
      · rw [if_neg hcond]; simpa using hws

/-- A run in which every invocation fails with a matched class and every
delay computation succeeds reaches exhaustion: starting at `attempts = a`
with `a < n`, exactly `n - a` further invocations happen, the final error
is `MaxRetryExceededError` caused by the last operation error, and
`n - a - 1` waits are appended. -/
theorem retryLoop_exhausts (p : RetryPolicy) (op : Nat → Except PyExc α)
    (draws : Nat → ℚ) (n : Nat)
    (hop : ∀ i, ∃ e, op i = Except.error e ∧
      excMatch p.exceptions (PyExc.cls e) = Except.ok true)
    (hbo : ∀ a, ∃ q, computeDelay p a (draws a) = Except.ok q) :
    ∀ fuel a c ws, a < n → n - a ≤ fuel →
      ∃ e tail, op (c + (n - a) - 1) = Except.error e ∧
        retryLoop p op draws (some n) fuel a c ws =
          (RunOutcome.raise
            (PyExc.mk .maxRetryExceededError (maxRetryMsg p.max_retries) (some e)),
           c + (n - a), ws ++ tail) ∧ tail.length = n - a - 1 := by
  intro fuel
  induction fuel with
  | zero => intro a c ws ha hf; omega
  | succ f ih =>
      intro a c ws ha hf
      obtain ⟨e, hoe, hme⟩ := hop c
      have hcond : loopCond (some n) a = true := by
        simp [loopCond]; omega
      by_cases hlast : a + 1 = n
      · refine ⟨e, [], ?_, ?_, by simp only [List.length_nil]; omega⟩
        · have hidx : c + (n - a) - 1 = c := by omega
          rw [hidx]; exact hoe
        · have hAt : atMax (some n) (a + 1) = true := by
            simp [atMax, hlast]
          have hc1 : c + (n - a) = c + 1 := by omega
          simp only [retryLoop, hcond, if_true, hoe, hme, hAt, hc1, List.append_nil]
      · have hAt : atMax (some n) (a + 1) = false := by
          simp [atMax]; omega
        obtain ⟨q, hq⟩ := hbo (a + 1)
        obtain ⟨e2, tail2, hoe2, hrec, hlen⟩ :=
          ih (a + 1) (c + 1) (ws ++ [q]) (by omega) (by omega)
        refine ⟨e2, q :: tail2, ?_, ?_, by simp only [List.length_cons, hlen]; omega⟩
        · have hidx : c + 1 + (n - (a + 1)) - 1 = c + (n - a) - 1 := by omega
          rw [hidx] at hoe2; exact hoe2
        · have harith : c + 1 + (n - (a + 1)) = c + (n - a) := by omega
          rw [harith, List.append_assoc, List.singleton_append] at hrec
          simp only [retryLoop, hcond, if_true, hoe, hme, hAt, hq]
          exact hrec

/-- A run whose invocations fail with a matched class up to invocation
index `m` (exclusive) and succeed at index `m < n`, with all delay
computations succeeding: started at `attempts = calls = c ≤ m`, it returns
the success value after `m + 1` total invocations, appending `m - c`
waits. -/
theorem retryLoop_succeeds (p : RetryPolicy) (op : Nat → Except PyExc α)
    (draws : Nat → ℚ) (n m : Nat) (v : α)
    (hok : op m = Except.ok v)
    (hfail : ∀ i, i < m → ∃ e, op i = Except.error e ∧
      excMatch p.exceptions (PyExc.cls e) = Except.ok true)
    (hbo : ∀ a, ∃ q, computeDelay p a (draws a) = Except.ok q)
    (hmn : m < n) :
    ∀ fuel c ws, c ≤ m → m - c < fuel →
      ∃ tail, retryLoop p op draws (some n) fuel c c ws =
        (RunOutcome.ok v, m + 1, ws ++ tail) ∧ tail.length = m - c := by
  intro fuel
  induction fuel with
  | zero => intro c ws hc hf; omega
  | succ f ih =>
      intro c ws hc hf
      have hcond : loopCond (some n) c = true := by
        simp [loopCond]; omega
      by_cases hcm : c = m
      · subst hcm
        refine ⟨[], ?_, by simp only [List.length_nil]; omega⟩
        simp only [retryLoop, hcond, if_true, hok, List.append_nil]
      · obtain ⟨e, hoe, hme⟩ := hfail c (by omega)
        have hAt : atMax (some n) (c + 1) = false := by
          simp [atMax]; omega
        obtain ⟨q, hq⟩ := hbo (c + 1)
        obtain ⟨tail2, hrec, hlen⟩ := ih (c + 1) (ws ++ [q]) (by omega) (by omega)
        refine ⟨q :: tail2, ?_, by simp only [List.length_cons, hlen]; omega⟩
        rw [List.append_assoc, List.singleton_append] at hrec
        simp only [retryLoop, hcond, if_true, hoe, hme, hAt, hq]
        exact hrec

/-- C1: for every policy with bounded `max_retries = n > 0` and stored
retryable exceptions `(E,)`, an operation that always fails with class `E`
(and whose delay computations succeed) is invoked exactly `n` times, then
the call fails with `MaxRetryExceededError` whose message reports `n` and
whose cause is the last underlying error; `n - 1` waits are performed. -/
theorem always_failing_exhausts (p : RetryPolicy) (op : Nat → Except PyExc α)
    (draws : Nat → ℚ) (n : Nat) (E : ExcClass) (errs : Nat → PyExc) (fuel : Nat)
    (hn : 0 < n) (hmr : p.max_retries = (n : Int))
    (hexc : p.exceptions = StoredExc.tuple [E])
    (hop : ∀ i, op i = Except.error (errs i))
    (hcls : ∀ i, PyExc.cls (errs i) = E)
    (hbo : ∀ a, ∃ q, computeDelay p a (draws a) = Except.ok q)
    (hfuel : n ≤ fuel) :
    ∃ tail, syncWrapper p op draws fuel =
      (RunOutcome.raise (PyExc.mk .maxRetryExceededError (maxRetryMsg (n : Int))
        (some (errs (n - 1)))), n, tail) ∧ tail.length = n - 1 := by
  have hmatch : ∀ i, ∃ e, op i = Except.error e ∧
      excMatch p.exceptions (PyExc.cls e) = Except.ok true := by
    intro i
    refine ⟨errs i, hop i, ?_⟩
    rw [hexc, hcls]
    simp [excMatch, subclassOf_self]
  have hbound : maxRBound p.max_retries = some n := by
    rw [hmr]
    unfold maxRBound
    rw [if_pos (by exact_mod_cast hn)]
    simp
  obtain ⟨e, tail, hoe, hrun, hlen⟩ :=
    retryLoop_exhausts p op draws n hmatch hbo fuel 0 0 [] hn (by omega)
  have hidx : 0 + (n - 0) - 1 = n - 1 := by omega
  rw [hidx] at hoe
  have he : e = errs (n - 1) :=
    (Except.error.inj ((hop (n - 1)).symm.trans hoe)).symm
  refine ⟨tail, ?_, by omega⟩
  rw [syncWrapper, hbound, hrun, he, hmr]
  have h0 : 0 + (n - 0) = n := by omega
  rw [h0]
  simp

/-- Witness for C1: `{max_retries: 3, delay: 1, exceptions: (ValueError,)}`
over an always-failing `ValueError` operation exhausts after 3 invocations
with 2 waits, the cause being the last `ValueError`. -/
theorem always_failing_exhausts_witness :
    ∃ tail, syncWrapper (⟨3, 1, none, 0, .tuple [.valueError], defaultBackoff⟩ : RetryPolicy)
        (fun _ => (Except.error (PyExc.mk .valueError "boom" none) : Except PyExc Nat))
        (fun _ => 0) 5 =
      (RunOutcome.raise (PyExc.mk .maxRetryExceededError (maxRetryMsg ((3 : Nat) : Int))
        (some (PyExc.mk .valueError "boom" none))), 3, tail) ∧ tail.length = 2 :=
  always_failing_exhausts _ _ _ 3 .valueError (fun _ => PyExc.mk .valueError "boom" none) 5
    (by norm_num) (by norm_num) rfl (fun _ => rfl) (fun _ => rfl)
    (fun _ => ⟨1 + 0, rfl⟩) (by norm_num)

/-- C3: for every policy with bounded `max_retries = n` and every `k` with
`1 ≤ k ≤ n`, an operation that fails with a matched class on its first
`k - 1` invocations and succeeds on the `k`-th (delay computations
succeeding) is invoked exactly `k` times, the success value is returned
unchanged, exactly `k - 1` waits are performed, and no exhaustion error is
raised (the outcome is `RunOutcome.ok`). -/
theorem success_on_kth (p : RetryPolicy) (op : Nat → Except PyExc α)
    (draws : Nat → ℚ) (n k : Nat) (v : α) (fuel : Nat)
    (hk : 1 ≤ k) (hkn : k ≤ n) (hmr : p.max_retries = (n : Int))
    (hok : op (k - 1) = Except.ok v)
    (hfail : ∀ i, i < k - 1 → ∃ e, op i = Except.error e ∧
      excMatch p.exceptions (PyExc.cls e) = Except.ok true)
    (hbo : ∀ a, ∃ q, computeDelay p a (draws a) = Except.ok q)
    (hfuel : k ≤ fuel) :
    ∃ tail, syncWrapper p op draws fuel = (RunOutcome.ok v, k, tail) ∧
      tail.length = k - 1 := by
  have hn : 0 < n := by omega
  have hbound : maxRBound p.max_retries = some n := by
    rw [hmr]
    unfold maxRBound
    rw [if_pos (by exact_mod_cast hn)]
    simp
  obtain ⟨tail, hrun, hlen⟩ :=
    retryLoop_succeeds p op draws n (k - 1) v hok hfail hbo (by omega)
      fuel 0 [] (by omega) (by omega)
  have hk1 : k - 1 + 1 = k := by omega
  rw [hk1] at hrun
  refine ⟨tail, ?_, by omega⟩
  rw [syncWrapper, hbound, hrun]
  simp

/-- Witness for C3: `{max_retries: 3, delay: 1, exceptions: (ValueError,)}`
over an operation failing twice with `ValueError` then returning 42
yields 42 after 3 invocations and 2 waits. -/
theorem success_on_kth_witness :
    ∃ tail, syncWrapper (⟨3, 1, none, 0, .tuple [.valueError], defaultBackoff⟩ : RetryPolicy)
        (fun i => if i < 2 then Except.error (PyExc.mk .valueError "boom" none)
                  else Except.ok 42)
        (fun _ => 0) 5 = (RunOutcome.ok 42, 3, tail) ∧ tail.length = 2 :=
  success_on_kth _ _ _ 3 3 42 5 (by norm_num) (by norm_num) rfl rfl
    (fun i hi => ⟨PyExc.mk .valueError "boom" none, by simp [hi], rfl⟩)
    (fun _ => ⟨1 + 0, rfl⟩) (by norm_num)

/-- C2: for every policy, an operation whose failure class does not match
the stored retryable exceptions is invoked exactly once, no wait is
performed, and the original exception instance propagates unchanged (not
wrapped, not retried, not converted to `MaxRetryExceededError`). -/
theorem nonretryable_propagates (p : RetryPolicy) (op : Nat → Except PyExc α)
    (draws : Nat → ℚ) (e : PyExc) (fuel : Nat)
    (hop : op 0 = Except.error e)
    (hm : excMatch p.exceptions (PyExc.cls e) = Except.ok false)
    (hfuel : 0 < fuel) :
    syncWrapper p op draws fuel = (RunOutcome.raise e, 1, []) := by
  obtain ⟨f, rfl⟩ : ∃ f, fuel = f + 1 := ⟨fuel - 1, by omega⟩
  simp [syncWrapper, retryLoop, loopCond_zero, hop, hm]

/-- Witness for C2: the policy `{max_retries: 3, delay: 1, exceptions:
(ValueError,)}` applied to an operation raising `KeyError` propagates the
`KeyError` after one invocation with no waits. -/
theorem nonretryable_propagates_witness :
    syncWrapper (⟨3, 1, none, 0, .tuple [.valueError], defaultBackoff⟩ : RetryPolicy)
        (fun _ => (Except.error (PyExc.mk .keyError "boom" none) : Except PyExc Nat))
        (fun _ => 0) 5 =
      (RunOutcome.raise (PyExc.mk .keyError "boom" none), 1, []) :=
  nonretryable_propagates _ _ _ (PyExc.mk .keyError "boom" none) 5 rfl rfl (by decide)

/-- C6: with `jitter = 0` the computed wait is deterministic: every draw
admissible for `uniform(-0.0, 0.0)` yields exactly the backoff output
clamped to `max_delay`, with no random component. -/
theorem jitter_zero_deterministic (p : RetryPolicy) (i : Nat) (draw d0 : ℚ)
    (hj : p.jitter = 0) (hlo : -p.jitter ≤ draw) (hhi : draw ≤ p.jitter)
    (hb : p.backoff.fn p.delay i = Except.ok d0) :
    computeDelay p i draw = Except.ok (clampDelay p.max_delay d0) := by
  have hdraw : draw = 0 := by rw [hj] at hlo hhi; rw [neg_zero] at hlo; linarith
  subst hdraw
  unfold computeDelay
  rw [hb]
  cases p.max_delay <;> simp [clampDelay]

/-- Witness for C6: base delay 1, `max_delay` 2, a 5-step backoff, jitter
0: the computed wait is exactly `min 5 2 = 2`. -/
theorem jitter_zero_deterministic_witness :
    computeDelay (⟨3, 1, some 2, 0, .tuple [.valueError],
        ⟨2, fun _ _ => Except.ok 5⟩⟩ : RetryPolicy) 1 0 =
      Except.ok (clampDelay (some 2) 5) :=
  jitter_zero_deterministic _ 1 0 5 rfl (by norm_num) (by norm_num) rfl

/-- C7: with `max_delay = D` set, no duration passed to the sleep step in
any run ever exceeds `D`, for every operation, every attempt count and
every jitter draw. -/
theorem wait_never_exceeds_max_delay (p : RetryPolicy) (op : Nat → Except PyExc α)
    (draws : Nat → ℚ) (fuel : Nat) (D : ℚ) (hD : p.max_delay = some D)
    (w : ℚ) (hw : w ∈ (syncWrapper p op draws fuel).2.2) : w ≤ D :=
  retryLoop_waits_le p op draws (maxRBound p.max_retries) D hD fuel 0 0 []
    (by intro w hw; simp at hw) w hw

/-- Witness for C7: the run of `{max_retries: 3, delay: 5, max_delay: 2}`
over an always-failing operation records the wait 2, and the theorem bounds
it by `D = 2`. -/
theorem wait_never_exceeds_max_delay_witness :
    (2 : ℚ) ∈ (syncWrapper (⟨3, 5, some 2, 0, .tuple [.valueError], defaultBackoff⟩ : RetryPolicy)
        (fun _ => (Except.error (PyExc.mk .valueError "boom" none) : Except PyExc Nat))
        (fun _ => 0) 5).2.2 ∧ (2 : ℚ) ≤ 2 := by
  have hmem : (2 : ℚ) ∈ (syncWrapper (⟨3, 5, some 2, 0, .tuple [.valueError], defaultBackoff⟩ : RetryPolicy)
      (fun _ => (Except.error (PyExc.mk .valueError "boom" none) : Except PyExc Nat))
      (fun _ => 0) 5).2.2 := by
    norm_num [syncWrapper, retryLoop, maxRBound, loopCond, atMax, excMatch, subclassOf, ancestors,
      computeDelay, defaultBackoff, PyExc.cls, Int.toNat]
  exact ⟨hmem, wait_never_exceeds_max_delay _ _ _ 5 2 rfl 2 hmem⟩

/-- C8: an error raised by the backoff callable itself during delay
computation is not caught by the retry loop: the wrapped call stops after
the single invocation already made and propagates the backoff error, even
when the class of that error would match the retryable exceptions (no
constraint on `be` below). -/
theorem backoff_error_propagates (p : RetryPolicy) (op : Nat → Except PyExc α)
    (draws : Nat → ℚ) (e be : PyExc) (fuel : Nat)
    (hop : op 0 = Except.error e)
    (hm : excMatch p.exceptions (PyExc.cls e) = Except.ok true)
    (hmr : p.max_retries ≠ 1)
    (hbe : p.backoff.fn p.delay 1 = Except.error be)
    (hfuel : 0 < fuel) :
    syncWrapper p op draws fuel = (RunOutcome.raise be, 1, []) := by
  obtain ⟨f, rfl⟩ : ∃ f, fuel = f + 1 := ⟨fuel - 1, by omega⟩
  have hAt : atMax (maxRBound p.max_retries) 1 = false := by
    unfold maxRBound
    by_cases hpos : 0 < p.max_retries
    · rw [if_pos hpos]
      simp only [atMax, beq_eq_false_iff_ne, ne_eq]
      omega
    · rw [if_neg hpos]
      rfl
  have hcd : computeDelay p 1 (draws 1) = Except.error be := by
    unfold computeDelay
    rw [hbe]
  simp [syncWrapper, retryLoop, loopCond_zero, hop, hm, hAt, hcd]

/-- Witness for C8: a policy whose backoff always raises a `ValueError`
(a retryable class) propagates that error after one invocation. -/
theorem backoff_error_propagates_witness :
    syncWrapper (⟨3, 1, none, 0, .tuple [.valueError],
        ⟨2, fun _ _ => Except.error (PyExc.mk .valueError "bad backoff" none)⟩⟩ : RetryPolicy)
        (fun _ => (Except.error (PyExc.mk .valueError "boom" none) : Except PyExc Nat))
        (fun _ => 0) 5 =
      (RunOutcome.raise (PyExc.mk .valueError "bad backoff" none), 1, []) :=
  backoff_error_propagates _ _ _ (PyExc.mk .valueError "boom" none)
    (PyExc.mk .valueError "bad backoff" none) 5 rfl rfl (by decide) rfl (by decide)

/-- C4: supplying `max_retries = 0`, a negative `delay`, a negative
`jitter`, a `backoff` whose argspec does not have exactly two parameters,
or an `exceptions` argument containing a non-error-kind entry makes
`retry.__init__` raise at construction (decoration) time — the result is
an error of class `ValueError` or `TypeError` and no policy is produced,
so the wrapped operation is never called. -/
theorem construction_validation (a : RetryArgs)
    (hbad : a.max_retries = 0 ∨ a.delay < 0 ∨ a.jitter < 0 ∨
            (∃ b, a.backoff = some b ∧ b.arity ≠ 2) ∨
            hasBadEntry a.exceptions = true) :
    ∃ e, retryInit a = Except.error e ∧
      (PyExc.cls e = ExcClass.valueError ∨ PyExc.cls e = ExcClass.typeError) := by
  by_cases h1 : a.max_retries = 0
  · refine ⟨PyExc.mk .valueError
      "Value of max_retries must be a non-zero integer." none, ?_, Or.inl rfl⟩
    simp only [retryInit, if_pos h1]
  by_cases h2 : a.delay < 0
  · refine ⟨PyExc.mk .valueError
      "Value of delay must be a non-negative integer." none, ?_, Or.inl rfl⟩
    simp only [retryInit, if_neg h1, if_pos h2]
  by_cases h3 : a.jitter < 0
  · refine ⟨PyExc.mk .valueError
      "Value of jitter must be a non-negative integer." none, ?_, Or.inl rfl⟩
    simp only [retryInit, if_neg h1, if_neg h2, if_pos h3]
  cases hv : validateExceptions a.exceptions with
  | error e =>
      refine ⟨e, ?_, Or.inr (validateExceptions_error_cls a.exceptions e hv)⟩
      simp only [retryInit, if_neg h1, if_neg h2, if_neg h3, hv]
  | ok st =>
      rcases hbad with h | h | h | ⟨b, hb, harity⟩ | h
      · exact absurd h h1
      · exact absurd h h2
      · exact absurd h h3
      · refine ⟨PyExc.mk .valueError
          "The backoff function must accept exactly 2 arguments." none, ?_, Or.inl rfl⟩
        simp only [retryInit, if_neg h1, if_neg h2, if_neg h3, hv, hb, if_pos harity]
      · have hgood := validateExceptions_ok_good a.exceptions st hv
        rw [hgood] at h
        cases h

/-- Witness for C4: `max_retries = 0` with otherwise default arguments is
rejected at construction with a configuration error. -/
theorem construction_validation_witness :
    ∃ e, retryInit ⟨0, 0, none, 0, .single (.excClass .exception), none⟩ =
      Except.error e ∧
      (PyExc.cls e = ExcClass.valueError ∨ PyExc.cls e = ExcClass.typeError) :=
  construction_validation ⟨0, 0, none, 0, .single (.excClass .exception), none⟩
    (Or.inl rfl)

/-- C5 fails on the code (code bug): with `delay = 0` and `jitter = 1`,
the legal jitter draw `-1/2` (it lies in `[-jitter, jitter]`) makes the
computed wait `-1/2 < 0`, and a full run of the wrapper records the
negative duration `-1/2` as what is passed to the sleep step — the code
has no floor at zero (src/retry.py lines 179-189), while the spec requires
that the wait passed to sleep never be negative. -/
theorem negative_wait_reaches_sleep :
    (-(1 : ℚ) ≤ -(1/2) ∧ -((1 : ℚ)/2) ≤ 1) ∧
    computeDelay (⟨3, 0, none, 1, .tuple [.valueError], defaultBackoff⟩ : RetryPolicy)
      1 (-(1/2)) = Except.ok (-(1/2)) ∧
    -((1 : ℚ)/2) < 0 ∧
    (syncWrapper (⟨3, 0, none, 1, .tuple [.valueError], defaultBackoff⟩ : RetryPolicy)
        (fun _ => (Except.error (PyExc.mk .valueError "boom" none) : Except PyExc Nat))
        (fun _ => -(1/2)) 5).2.2 = [-(1/2), -(1/2)] := by
  refine ⟨⟨by norm_num, by norm_num⟩, ?_, by norm_num, ?_⟩
  · norm_num [computeDelay, defaultBackoff]
  · norm_num [syncWrapper, retryLoop, maxRBound, loopCond, atMax, excMatch, subclassOf,
      ancestors, computeDelay, defaultBackoff, PyExc.cls, Int.toNat]

/-- C9 as stated is false on the code (counterexample): the policy
`{max_retries: 2, exceptions: CancelledError}` is constructible —
`__init__` accepts any `BaseException` subclass — and an operation that
always raises the cancellation signal is then caught, counted as two
attempts and converted into `MaxRetryExceededError`, instead of
propagating immediately after one invocation. -/
theorem cancellation_retried_counterexample :
    retryInit ⟨2, 0, none, 0, .single (.excClass .cancelledError), none⟩ =
      Except.ok (⟨2, 0, none, 0, .tuple [.cancelledError], defaultBackoff⟩ : RetryPolicy) ∧
    syncWrapper (⟨2, 0, none, 0, .tuple [.cancelledError], defaultBackoff⟩ : RetryPolicy)
        (fun _ => (Except.error (PyExc.mk .cancelledError "" none) : Except PyExc Nat))
        (fun _ => 0) 5 =
      (RunOutcome.raise (PyExc.mk .maxRetryExceededError (maxRetryMsg 2)
        (some (PyExc.mk .cancelledError "" none))), 2, [0]) := by
  constructor
  · norm_num [retryInit, validateExceptions]
  · norm_num [syncWrapper, retryLoop, maxRBound, loopCond, atMax, excMatch, subclassOf,
      ancestors, computeDelay, defaultBackoff, PyExc.cls, Int.toNat]

/-- C9 amended: a cancellation signal is never retried, in the original
scope of the claim, for runs with any number `m` of prior retried matched
failures (completed sleeps, live attempt budget): (i) for every policy
whose stored retryable tuple contains no class that the cancellation class
subclasses (in particular the default `(Exception,)`, since
`CancelledError` derives directly from `BaseException`), a cancellation
raised by the operation at invocation `m` propagates unchanged; and
(ii) for every such tuple-stored policy without restriction on its classes,
a cancellation delivered during the sleep following a matched failure at
invocation `m` propagates unchanged, because the sleep call sits inside
the `except` handler, outside the `try`, where nothing can classify it.
In both cases exactly `m + 1` invocations have happened and exactly `m`
waits completed: the cancellation is not counted as an attempt, not
converted to exhaustion, and triggers no further retry. Only the
policy-set restriction in (i) is forced by the counterexample. -/
theorem cancellation_never_retried (p : RetryPolicy)
    (op : Nat → Except PyExc α) (draws : Nat → ℚ) (cancels : Nat → Option PyExc)
    (cs : List ExcClass) (m : Nat) (ce : PyExc) (fuel : Nat)
    (hexc : p.exceptions = StoredExc.tuple cs)
    (hce : PyExc.cls ce = ExcClass.cancelledError)
    (hpre : ∀ i, i < m → ∃ e, op i = Except.error e ∧
      excMatch p.exceptions (PyExc.cls e) = Except.ok true)
    (hlive : ∀ i, i < m → atMax (maxRBound p.max_retries) (i + 1) = false)
    (hbo : ∀ a, ∃ q, computeDelay p a (draws a) = Except.ok q)
    (hslp : ∀ a, a ≤ m → cancels a = none)
    (hcase :
      ((∀ c ∈ cs, subclassOf ExcClass.cancelledError c = false) ∧
        op m = Except.error ce) ∨
      ((∃ e, op m = Except.error e ∧
          excMatch p.exceptions (PyExc.cls e) = Except.ok true) ∧
        atMax (maxRBound p.max_retries) (m + 1) = false ∧
        cancels (m + 1) = some ce))
    (hfuel : m < fuel) :
    ∃ tail, syncWrapperC p op draws cancels fuel =
      (RunOutcome.raise ce, m + 1, tail) ∧ tail.length = m := by
  have hcond : ∀ a, a ≤ m → loopCond (maxRBound p.max_retries) a = true := by
    intro a ha
    cases hB : maxRBound p.max_retries with
    | none => rfl
    | some n =>
        have h1 : 1 ≤ n := maxRBound_pos p.max_retries n hB
        have h2 : m < n := by
          by_contra hle
          push_neg at hle
          have h3 := hlive (n - 1) (by omega)
          have h4 : n - 1 + 1 = n := by omega
          rw [h4, hB] at h3
          simp [atMax] at h3
        simp only [loopCond, decide_eq_true_eq]
        omega
  have hcase2 : (op m = Except.error ce ∧
        excMatch p.exceptions (PyExc.cls ce) = Except.ok false) ∨
      ((∃ e, op m = Except.error e ∧
          excMatch p.exceptions (PyExc.cls e) = Except.ok true) ∧
        atMax (maxRBound p.max_retries) (m + 1) = false ∧
        cancels (m + 1) = some ce) := by
    rcases hcase with ⟨hnc, hop⟩ | h
    · refine Or.inl ⟨hop, ?_⟩
      rw [hexc, hce]
      simp only [excMatch, Except.ok.injEq]
      rw [List.any_eq_false]
      intro c hc
      simp [hnc c hc]
    · exact Or.inr h
  obtain ⟨tail, hrun, hlen⟩ :=
    retryLoopC_cancel p op draws cancels (maxRBound p.max_retries) m ce
      hcond hpre hlive hbo hslp hcase2 fuel 0 [] (by omega) (by omega)
  refine ⟨tail, ?_, by omega⟩
  rw [syncWrapperC, hrun]
  simp

/-- Witness for the amended C9: under `{max_retries: 3, delay: 1,
exceptions: (ValueError,)}`, an operation failing with `ValueError` on its
first two invocations while the host cancels the second sleep makes the
wrapped call raise the `CancelledError` after 2 invocations and 1
completed wait, with no exhaustion error and no further retry. -/
theorem cancellation_never_retried_witness :
    ∃ tail, syncWrapperC (⟨3, 1, none, 0, .tuple [.valueError], defaultBackoff⟩ : RetryPolicy)
        (fun _ => (Except.error (PyExc.mk .valueError "boom" none) : Except PyExc Nat))
        (fun _ => 0)
        (fun a => if a = 2 then some (PyExc.mk .cancelledError "" none) else none) 5 =
      (RunOutcome.raise (PyExc.mk .cancelledError "" none), 2, tail) ∧ tail.length = 1 :=
  cancellation_never_retried _ _ _ _ [.valueError] 1 (PyExc.mk .cancelledError "" none) 5
    rfl rfl
    (fun _ _ => ⟨PyExc.mk .valueError "boom" none, rfl, rfl⟩)
    (by intro i hi; have h0 : i = 0 := (by omega); subst h0; decide)
    (fun _ => ⟨1 + 0, rfl⟩)
    (by intro a ha; exact if_neg (by omega))
    (Or.inr ⟨⟨PyExc.mk .valueError "boom" none, rfl, rfl⟩, by decide, rfl⟩)
    (by norm_num)

/-- Every entry of a mapped class list is an error kind. -/
theorem all_isErrKind_map (cs : List ExcClass) :
    (cs.map ExcEntry.excClass).all ExcEntry.isErrKind = true := by
  induction cs with
  | nil => rfl
  | cons c t ih => simp only [List.map_cons, List.all_cons, ExcEntry.isErrKind, ih,
      Bool.and_self]

/-- Recovering the classes from a mapped class list. -/
theorem filterMap_toClass_map (cs : List ExcClass) :
    (cs.map ExcEntry.excClass).filterMap ExcEntry.toClass = cs := by
  induction cs with
  | nil => rfl
  | cons c t ih => simp only [List.map_cons, List.filterMap_cons, ExcEntry.toClass, ih]

/-- C10: an `exceptions` argument given as a non-tuple iterable (a list)
of error kinds passes construction — every entry is validated but the list
is stored unconverted — and the first failure of the wrapped operation
then raises a `TypeError` from the `except`-matching step itself after one
invocation, instead of being classified and retried. -/
theorem list_exceptions_deferred_typeerror (α : Type) (cs : List ExcClass)
    (mr : Int) (d j : ℚ) (md : Option ℚ)
    (op : Nat → Except PyExc α) (draws : Nat → ℚ) (e : PyExc) (fuel : Nat)
    (hmr : mr ≠ 0) (hd : 0 ≤ d) (hj : 0 ≤ j)
    (hop : op 0 = Except.error e) (hfuel : 0 < fuel) :
    ∃ p te, retryInit ⟨mr, d, md, j, ExcSpec.list (cs.map ExcEntry.excClass), none⟩ =
        Except.ok p ∧
      p.exceptions = StoredExc.list cs ∧
      PyExc.cls te = ExcClass.typeError ∧
      syncWrapper p op draws fuel = (RunOutcome.raise te, 1, []) := by
  have hval : validateExceptions (ExcSpec.list (cs.map ExcEntry.excClass)) =
      Except.ok (StoredExc.list cs) := by
    simp only [validateExceptions, all_isErrKind_map, if_true, filterMap_toClass_map]
  refine ⟨⟨mr, d, md, j, StoredExc.list cs, defaultBackoff⟩,
    PyExc.mk .typeError
      "catching classes that do not inherit from BaseException is not allowed" none,
    ?_, rfl, rfl, ?_⟩
  · simp only [retryInit, if_neg hmr, if_neg (not_lt.2 hd), if_neg (not_lt.2 hj), hval]
  · obtain ⟨f, rfl⟩ : ∃ f, fuel = f + 1 := ⟨fuel - 1, by omega⟩
    simp [syncWrapper, retryLoop, loopCond_zero, hop, excMatch]

/-- Witness for C10: a list `[ValueError]` is accepted by construction and
the first `ValueError` raised by the operation produces a `TypeError`
after one invocation. -/
theorem list_exceptions_deferred_typeerror_witness :
    ∃ p te, retryInit ⟨-1, 0, none, 0,
        ExcSpec.list ([ExcClass.valueError].map ExcEntry.excClass), none⟩ =
        Except.ok p ∧
      p.exceptions = StoredExc.list [ExcClass.valueError] ∧
      PyExc.cls te = ExcClass.typeError ∧
      syncWrapper p (fun _ => (Except.error (PyExc.mk .valueError "boom" none) : Except PyExc Nat))
        (fun _ => 0) 5 = (RunOutcome.raise te, 1, []) :=
  list_exceptions_deferred_typeerror Nat [ExcClass.valueError] (-1) 0 0 none
    _ _ (PyExc.mk .valueError "boom" none) 5
    (by norm_num) (by norm_num) (by norm_num) rfl (by norm_num)

end Retry
